import Mathlib

/-!
# Verification of the BDD-card generation core (generate-bdd-cards)

Shallow embedding of the algorithmic core of the repository:

* `RetryManager.execute` (src/utils/retry.ts, bundled after src/utils/logger.ts)
* content normalization (`normalizeContent`, `normalizeMarkdownContent` in
  src/modules/gdocs.ts)
* the document tree walker (`extractContent` in src/modules/gdocs.ts)
* the permission-error heuristic and the catch branch of `readDocument`
  (src/modules/gdocs.ts)
* the local markdown search (`findMarkdownFiles`/`scanDirectoryForMarkdown`
  in src/modules/gdocs.ts)
* the structured-response recovery pipeline of `generateBDDCards`
  (src/modules/gepeto.ts) together with `attemptJsonFix` and the Zod
  `BDDCardSchema` (src/types/index.ts)

JavaScript numbers are modelled as rationals (ℚ); JS strings as Lean
`String`/`List Char`.  Thrown JS values are modelled by an explicit error
channel (`Except`), with `Option E` distinguishing a thrown value of type `E`
(`some e`) from a thrown `undefined` (`none`).
-/

/-! ## RetryManager (src/utils/retry.ts)

The wrapped `operation` is modelled as a function from the attempt number
(1-based, as in the source `for` loop) to the outcome of that invocation:
`Except.ok v` when the promise resolves, `Except.error e` when it rejects
with the JS value `e`.  `retryCondition` is the retry predicate.

`RetryManager.retryLoop` models the `for (let attempt = 1; attempt <=
opts.maxAttempts; attempt++)` loop of lines 114-142.  The `fuel` argument
counts the remaining loop iterations (`maxAttempts - attempt + 1` at every
call site), so running out of fuel is exactly the loop condition failing, at
which point line 144 `throw lastError` runs: the error channel carries
`lastError : Option E`, initialized to `none` (JS `undefined`, line 112).

The returned `Nat` counts how many times `operation` was invoked. -/

def RetryManager.retryLoop {E T : Type} (op : Nat → Except E T)
    (retryCondition : E → Bool) (maxAttempts : Nat) :
    Nat → Nat → Option E → Except (Option E) T × Nat
  | 0, _, lastError => (Except.error lastError, 0)
  | fuel + 1, attempt, _ =>
    match op attempt with
    | Except.ok v => (Except.ok v, 1)
    | Except.error e =>
      -- line 121: no retry on the last attempt or when the predicate rejects
      if attempt = maxAttempts || !(retryCondition e) then
        (Except.error (some e), 1)
      else
        let rest := RetryManager.retryLoop op retryCondition maxAttempts fuel
          (attempt + 1) (some e)
        (rest.1, rest.2 + 1)

/-- Models `execute` of src/utils/retry.ts lines 107-145, with the
delay/sleep side effects elided (the computed delay is modelled separately by
`RetryManager.finalDelay`). -/
def RetryManager.execute {E T : Type} (op : Nat → Except E T)
    (retryCondition : E → Bool) (maxAttempts : Nat) : Except (Option E) T × Nat :=
  RetryManager.retryLoop op retryCondition maxAttempts maxAttempts 1 none

/-- The default `maxAttempts` (line 94). -/
def RetryManager.defaultMaxAttempts : Nat := 3

/-- The delay computed on lines 126-137 before the sleep that precedes the
next attempt: exponential backoff capped at `maxDelay`, plus jitter
`Math.random() * 0.1 * delay` (the random sample `rand` is in `[0, 1)`), and
`Math.max` against a parsed `Retry-After` header (seconds) when one is
present on the failed response.  JS float arithmetic is idealized to ℚ. -/
def RetryManager.finalDelay (baseDelay maxDelay backoffFactor : ℚ)
    (attempt : Nat) (rand : ℚ) (retryAfter : Option Nat) : ℚ :=
  let delay := min (baseDelay * backoffFactor ^ (attempt - 1)) maxDelay
  let jitter := rand * (1 / 10) * delay
  let totalDelay := delay + jitter
  match retryAfter with
  | some r => max ((r : ℚ) * 1000) totalDelay
  | none => totalDelay

/-! ## Content normalizer (src/modules/gdocs.ts)

Both `normalizeContent` (lines 204-219) and `normalizeMarkdownContent`
(lines 410-427) run the same three regex replacements followed by
`.trim()`; they differ only in how the `# title` heading is added.  The
replacements are modelled by one-pass character scanners with the same
global-replace semantics. -/

def isSpaceTab (c : Char) : Bool := c = ' ' || c = '\t'

/-- JS whitespace as relevant to `.trim()` on the strings this program
handles (space, tab, newline, carriage return). -/
def isJsWs (c : Char) : Bool := c = ' ' || c = '\t' || c = '\n' || c = '\r'

/-- Models `replace` of the pattern `\n{3,}` by two newlines, globally:
every maximal run of three or more newlines becomes exactly two.  The accumulator counts the newlines of the
current run already seen. -/
def collapseNewlines : Nat → List Char → List Char
  | _, [] => []
  | n, '\n' :: rest =>
    if n < 2 then '\n' :: collapseNewlines (n + 1) rest
    else collapseNewlines (n + 1) rest
  | _, c :: rest => c :: collapseNewlines 0 rest

/-- Models `replace` of the pattern `[ \t]+` by a single space, globally:
every maximal run of spaces/tabs becomes one space.  The accumulator remembers whether we are inside a run whose space
was already emitted. -/
def collapseSpaces : Bool → List Char → List Char
  | _, [] => []
  | inRun, c :: rest =>
    if isSpaceTab c then
      if inRun then collapseSpaces true rest
      else ' ' :: collapseSpaces true rest
    else c :: collapseSpaces false rest

/-- Models `replace` of the pattern `\n[ \t]+` by a newline, globally:
drop every run of spaces/tabs that immediately follows a newline.  The accumulator remembers whether the
previous character emitted was a newline (or we are still consuming its
indentation). -/
def stripIndent : Bool → List Char → List Char
  | _, [] => []
  | afterNL, c :: rest =>
    if afterNL && isSpaceTab c then stripIndent true rest
    else if c = '\n' then '\n' :: stripIndent true rest
    else c :: stripIndent false rest

/-- Models the JS `trim` method (restricted to the four whitespace characters above). -/
def trimChars (l : List Char) : List Char :=
  ((l.dropWhile isJsWs).reverse.dropWhile isJsWs).reverse

def jsTrim (s : String) : String := String.mk (trimChars s.data)

/-- The shared whitespace-cleanup prefix of both normalizers: the three
replacements in source order, then `.trim()`. -/
def cleanupText (s : String) : String :=
  String.mk (trimChars (stripIndent false (collapseSpaces false
    (collapseNewlines 0 s.data))))

/-- Models `normalizeContent` (gdocs.ts lines 204-219), remote-document path: after
the cleanup it prepends `# ${content.title}\n\n` unconditionally (line 216).
The `content` record is passed as its two fields `title` and `text`. -/
def normalizeContent (title text : String) : String :=
  "# " ++ title ++ "\n\n" ++ cleanupText text

/-- Models `normalizeMarkdownContent` (gdocs.ts lines 410-427), local-fallback
path: after the cleanup it prepends the heading only when the cleaned text
does not already start with `# ${title}` (lines 422-424). -/
def normalizeMarkdownContent (content title : String) : String :=
  let normalized := cleanupText content
  if ("# " ++ title).data.isPrefixOf normalized.data then normalized
  else "# " ++ title ++ "\n\n" ++ normalized

/-! ## Document tree walker: `extractContent` (gdocs.ts lines 116-202)

The Google-Docs content tree is dynamic JS data; `processElement` probes the
optional fields `textRun`, `paragraph`, `table`, `list`, `elements` of each
element, in that order, concatenating their contributions.  The embedding
mirrors each probed field with an `Option`:

* `textRun`   : `Option (Option String)` — `element.textRun` present, and
  within it `content` (line 127, the empty-string default);
* `paragraph` : elements list (`paragraph.elements`), the named style string
  (`paragraph.paragraphStyle?.namedStyleType`, the two optional hops
  collapsed into one `Option String`), and the presence of
  `paragraph.bullet`;
* `table`     : `table.tableRows`, per row the `tableCells`, per cell the
  `content`;
* `list`      : `element.list` present, and within it
  `listProperties?.nestingLevels` (the two hops collapsed), a list of
  entries each with an optional `nestingLevel`;
* `elements`  : the generic child list.
-/

mutual
inductive GElement : Type where
  | mk (textRun : Option (Option String)) (paragraph : Option GParagraph)
       (table : Option GTable) (list : Option (Option (List (Option Nat))))
       (elements : Option (List GElement)) : GElement
inductive GParagraph : Type where
  | mk (elements : Option (List GElement)) (namedStyleType : Option String)
       (bullet : Bool) : GParagraph
inductive GTable : Type where
  | mk (tableRows : Option (List GRow)) : GTable
inductive GRow : Type where
  | mk (tableCells : Option (List GCell)) : GRow
inductive GCell : Type where
  | mk (content : Option (List GElement)) : GCell
end

/-- Models `parseInt` on the digits left after stripping the prefix
`HEADING_` from the style name (line 144): leading decimal digits; a
non-digit start yields 0 here because in JS, `repeat` of a NaN count gives
the empty string. -/
def parseHeadingLevel (s : List Char) : Nat :=
  (s.takeWhile Char.isDigit).foldl (fun n c => n * 10 + (c.toNat - '0'.toNat)) 0

mutual
/-- Models `processElement` of `extractContent` (gdocs.ts lines 120-194). -/
def processElement : GElement → String
  | .mk textRun paragraph table list elements =>
    -- lines 126-128: text runs
    (match textRun with
     | some c => c.getD ("")
     | none => "") ++
    -- lines 131-155: paragraphs
    (match paragraph with
     | some p => processParagraph p
     | none => "") ++
    -- lines 158-176: tables
    (match table with
     | some t => processTable t
     | none => "") ++
    -- lines 179-186: list markers
    (match list with
     | some info =>
       match info with
       | some nestingLevels =>
         let level := ((nestingLevels.headI).getD 0)
         String.mk (List.replicate (2 * level) ' ') ++ "- "
       | none => ""
     | none => "") ++
    -- lines 189-191: child elements
    (match elements with
     | some es => processElements es
     | none => "")

def processParagraph : GParagraph → String
  | .mk elements namedStyleType bullet =>
    let t0 := match elements with
      | some es => processElements es
      | none => ""
    -- lines 141-147: heading markers
    let t1 := match namedStyleType with
      | some style =>
        if ("HEADING_".data).isPrefixOf style.data then
          String.mk (List.replicate (parseHeadingLevel (style.data.drop 8)) '#')
            ++ " " ++ t0
        else t0
      | none => t0
    -- lines 150-152: bullet marker
    let t2 := if bullet then "- " ++ t1 else t1
    t2 ++ "\n"

def processTable : GTable → String
  | .mk tableRows =>
    match tableRows with
    | some rows => processRows rows ++ "\n"
    | none => ""

def processRows : List GRow → String
  | [] => ""
  | r :: rs => processRow r ++ processRows rs

def processRow : GRow → String
  | .mk tableCells =>
    match tableCells with
    | some cells => "| " ++ joinCells cells ++ " |\n"
    | none => ""

/-- Models the mapping of `tableCells` through the cell flattener and the
join of the results with the separator `" | "` (lines 163-170). -/
def joinCells : List GCell → String
  | [] => ""
  | [c] => processCell c
  | c :: cs => processCell c ++ " | " ++ joinCells cs

def processCell : GCell → String
  | .mk content =>
    match content with
    | some es => jsTrim (processElements es)
    | none => ""

def processElements : List GElement → String
  | [] => ""
  | e :: es => processElement e ++ processElements es
end

/-! ## Permission-error heuristic and the catch branch of `readDocument` (gdocs.ts) -/

/-- The fields of a thrown fetch error that `isPermissionError` and the
catch branch of `readDocument` inspect. -/
structure FetchError where
  responseStatus : Option Int
  code : Option Int
  message : Option String
deriving DecidableEq

/-- ASCII lower-casing, modelling `.toLowerCase()` on the messages
considered. -/
def asciiLower (s : String) : String :=
  String.mk (s.data.map fun c => if 'A' ≤ c ∧ c ≤ 'Z' then Char.ofNat (c.toNat + 32) else c)

/-- Boolean substring containment on character lists. -/
def listInfixOf (pat : List Char) : List Char → Bool
  | [] => pat.isPrefixOf []
  | c :: rest => pat.isPrefixOf (c :: rest) || listInfixOf pat rest

/-- Models the JS `includes` method as substring containment on characters. -/
def jsIncludes (s pat : String) : Bool := listInfixOf pat.data s.data

/-- Models `isPermissionError` (gdocs.ts lines 280-289): the early-return chain.
Each optional-chaining probe `error?.message?.toLowerCase().includes(p)`
is false when `message` is absent. -/
def isPermissionError (e : FetchError) : Bool :=
  if e.responseStatus = some 403 then true
  else if e.code = some 403 then true
  else if (match e.message with
           | some m => jsIncludes (asciiLower m) "permission denied"
           | none => false) then true
  else if (match e.message with
           | some m => jsIncludes (asciiLower m) "access denied"
           | none => false) then true
  else if (match e.message with
           | some m => jsIncludes (asciiLower m) "forbidden"
           | none => false) then true
  else if (match e.message with
           | some m => jsIncludes (asciiLower m) "insufficient permissions"
           | none => false) then true
  else false

/-- Outcome of the `catch` branch of `readDocument` (gdocs.ts lines
101-113): either the local-markdown fallback is invoked, or the error is
returned as a failed `ApiResponse`. -/
inductive ReadDocCatchOutcome where
  | fallback
  | failure (msg : String)
deriving DecidableEq

/-- The catch branch of `readDocument`: permission-class errors divert to
`fallbackToLocalMarkdown`, everything else becomes a failed response whose
error field is the error message. -/
def readDocumentCatch (e : FetchError) : ReadDocCatchOutcome :=
  if isPermissionError e then ReadDocCatchOutcome.fallback
  else ReadDocCatchOutcome.failure (e.message.getD ("Unknown error"))

/-- The permission-class heuristic exactly as the claim/spec words it: HTTP
status 403, or error code 403, or the message containing, case-
insensitively, one of the four phrases.  (Spec side of the refinement
check; compare with `isPermissionError` above, which follows the code.) -/
def PermissionClassSpec (e : FetchError) : Prop :=
  e.responseStatus = some 403 ∨ e.code = some 403 ∨
    ∃ m, e.message = some m ∧
      (jsIncludes (asciiLower m) "permission denied" = true ∨
       jsIncludes (asciiLower m) "access denied" = true ∨
       jsIncludes (asciiLower m) "forbidden" = true ∨
       jsIncludes (asciiLower m) "insufficient permissions" = true)

/-! ## Local markdown search (gdocs.ts lines 291-399)

The filesystem visible to the process is modelled as a finite named tree
rooted at the current working directory; a directory holds its (ordered)
listing, the order being the one `readdirSync` returns.  The scanners take
a fuel argument bounding the number of tree nodes visited; the theorems
below supply fuel larger than the size of the concrete tree at hand, so
the bound is never hit and the scan is exactly the recursion of the
source. -/

inductive FsEntry : Type where
  | file (mtime : Nat) : FsEntry
  | dir (entries : List (String × FsEntry)) : FsEntry

/-- Splitting a character list on the path separator; the accumulator holds
the reversed current segment. -/
def splitSegs (acc : List Char) : List Char → List String
  | [] => [String.mk acc.reverse]
  | '/' :: rest => String.mk acc.reverse :: splitSegs [] rest
  | c :: rest => splitSegs (c :: acc) rest

/-- Relative-path segments: split on the separator and drop empty and
single-dot segments, as the normalization inside the Node `join` does (no
`..` segments occur in this program). -/
def splitPath (s : String) : List String :=
  (splitSegs [] s.data).filter (fun seg => seg ≠ "" && seg ≠ ".")

/-- Models `join(a, b)` of node:path for the relative, dot-dot-free paths
this program builds. -/
def pathJoin (a b : String) : String :=
  match splitPath (a ++ "/" ++ b) with
  | [] => "."
  | segs => String.intercalate ("/") segs

def lookupEntry (name : String) : List (String × FsEntry) → Option FsEntry
  | [] => none
  | (n, e) :: rest => if n = name then some e else lookupEntry name rest

/-- Path resolution against the root tree (the combination of `existsSync`
and `statSync` used by the scan). -/
def FsEntry.resolve : FsEntry → List String → Option FsEntry
  | e, [] => some e
  | FsEntry.file _, _ :: _ => none
  | FsEntry.dir entries, seg :: rest =>
    match lookupEntry seg entries with
    | some e => FsEntry.resolve e rest
    | none => none

/-- Models `extname` of node:path on a base name: the suffix from the last
dot, empty when there is no dot or the only dot is the leading one. -/
def extname (name : String) : String :=
  let rev := name.data.reverse
  let afterDot := rev.takeWhile (fun c => c ≠ '.')
  if afterDot.length = rev.length then ""
  else if afterDot.length + 1 = rev.length then ""
  else String.mk ('.' :: afterDot.reverse)

/-- The loop of `scanDirectoryForMarkdown` (gdocs.ts lines 385-396) over a
directory listing: directories are recursed into unless hidden or
`node_modules`; files are collected when their lower-cased extension is
`.md`. -/
def scanEntries : Nat → String → List (String × FsEntry) → List String
  | 0, _, _ => []
  | _ + 1, _, [] => []
  | fuel + 1, dirPath, (name, entry) :: rest =>
    (match entry with
     | FsEntry.file _ =>
       if asciiLower (extname name) = ".md" then [pathJoin dirPath name] else []
     | FsEntry.dir sub =>
       if (".").data.isPrefixOf name.data || name = "node_modules" then []
       else scanEntries fuel (pathJoin dirPath name) sub)
    ++ scanEntries fuel dirPath rest

/-- Models `scanDirectoryForMarkdown(dirPath)` (gdocs.ts lines 381-399)
against the root tree.  When `dirPath` names a file, `readdirSync` throws;
the caller catches that and contributes nothing. -/
def scanDirectoryForMarkdown (fuel : Nat) (root : FsEntry) (dirPath : String) :
    List String :=
  match root.resolve (splitPath dirPath) with
  | some (FsEntry.dir entries) => scanEntries fuel dirPath entries
  | _ => []

/-- Modification time of the file at a path, used by the sort comparator
(gdocs.ts lines 374-378). -/
def fileMtime (root : FsEntry) (p : String) : Nat :=
  match root.resolve (splitPath p) with
  | some (FsEntry.file m) => m
  | _ => 0

/-- Stable insertion into a list sorted by modification time, descending. -/
def insertByMtime (root : FsEntry) (x : String) : List String → List String
  | [] => [x]
  | y :: ys =>
    if fileMtime root y < fileMtime root x then x :: y :: ys
    else y :: insertByMtime root x ys

/-- Stable sort by modification time, most recent first (the comparator of
gdocs.ts lines 374-378); the claims proved below are insensitive to the
particular sorting algorithm, which permutes the collected list. -/
def sortByMtimeDesc (root : FsEntry) (l : List String) : List String :=
  l.foldr (insertByMtime root) []

/-- Models `findMarkdownFiles(searchPaths)` (gdocs.ts lines 359-379):
scan each existing search path in order, concatenating results, then sort
by modification time descending. -/
def findMarkdownFiles (fuel : Nat) (root : FsEntry) (paths : List String) :
    List String :=
  sortByMtimeDesc root ((paths.map fun p =>
    if (root.resolve (splitPath p)).isSome then scanDirectoryForMarkdown fuel root p
    else []).flatten)

/-- The search path list of `fallbackToLocalMarkdown` (gdocs.ts lines
309-316). -/
def fallbackSearchPaths : List String :=
  [".", "./docs", "./documents", "./markdown", "./content", "./.cache"]

/-! ## Structured response recovery (src/modules/gepeto.ts)

The post-completion part of `generateBDDCards` (lines 73-99 and the catch
at 100-106): fenced-block extraction, strict JSON parse, Zod schema
validation, and on failure one repair pass (`attemptJsonFix`) followed by a
single re-parse. -/

/-- Whitespace of the regex class `\s` and of the JSON grammar, restricted
to the four common characters. -/
def isWsChar (c : Char) : Bool := c = ' ' || c = '\t' || c = '\n' || c = '\r'

/-- First occurrence split: the part before the first occurrence of `delim`
and the part after it. -/
def splitAtFirst (delim : List Char) : List Char → Option (List Char × List Char)
  | [] => if delim.isEmpty then some ([], []) else none
  | c :: rest =>
    if delim.isPrefixOf (c :: rest) then some ([], (c :: rest).drop delim.length)
    else
      match splitAtFirst delim rest with
      | some (pre, post) => some (c :: pre, post)
      | none => none

/-- Leftmost match of the fenced-block pattern: the earliest position where
`openTag` matches such that `closeTag` occurs later; the lazily matched
group is the text up to the first such `closeTag`.  Models the regexes of
gepeto.ts line 76. -/
def matchFenced (openTag closeTag : List Char) : List Char → Option (List Char)
  | [] => none
  | c :: rest =>
    if openTag.isPrefixOf (c :: rest) then
      match splitAtFirst closeTag ((c :: rest).drop openTag.length) with
      | some (grp, _) => some grp
      | none => matchFenced openTag closeTag rest
    else matchFenced openTag closeTag rest

/-- Models line 76-77: prefer a block fenced with the json tag, then any
fenced block, else the whole reply. -/
def extractJsonCandidate (content : String) : String :=
  match matchFenced ("```json\n").data ("\n```").data content.data with
  | some grp => String.mk grp
  | none =>
    match matchFenced ("```\n").data ("\n```").data content.data with
    | some grp => String.mk grp
    | none => content

/-! ### JSON values and a strict parser (the model of `JSON.parse`)

Parse errors carry a message; the message text is a deterministic function
of the parsed string, as the real engine message is.  The parser accepts
exactly the strict JSON grammar over the modelled whitespace. -/

inductive JsonValue : Type where
  | null : JsonValue
  | bool (b : Bool) : JsonValue
  | num (q : ℚ) : JsonValue
  | str (s : String) : JsonValue
  | arr (elems : List JsonValue) : JsonValue
  | obj (fields : List (String × JsonValue)) : JsonValue

def skipWs (l : List Char) : List Char := l.dropWhile isWsChar

/-- Hexadecimal digit value. -/
def hexVal (c : Char) : Option Nat :=
  if '0' ≤ c ∧ c ≤ '9' then some (c.toNat - ('0').toNat)
  else if 'a' ≤ c ∧ c ≤ 'f' then some (c.toNat - ('a').toNat + 10)
  else if 'A' ≤ c ∧ c ≤ 'F' then some (c.toNat - ('A').toNat + 10)
  else none

/-- String body parser, after the opening quote; handles the JSON escapes
and rejects raw control characters. -/
def parseJsonStringBody (acc : List Char) : List Char → Except String (String × List Char)
  | [] => Except.error "Unterminated string in JSON"
  | '"' :: rest => Except.ok (String.mk acc.reverse, rest)
  | '\\' :: rest =>
    match rest with
    | '"' :: r => parseJsonStringBody ('"' :: acc) r
    | '\\' :: r => parseJsonStringBody ('\\' :: acc) r
    | '/' :: r => parseJsonStringBody ('/' :: acc) r
    | 'b' :: r => parseJsonStringBody (Char.ofNat 8 :: acc) r
    | 'f' :: r => parseJsonStringBody (Char.ofNat 12 :: acc) r
    | 'n' :: r => parseJsonStringBody ('\n' :: acc) r
    | 'r' :: r => parseJsonStringBody ('\r' :: acc) r
    | 't' :: r => parseJsonStringBody ('\t' :: acc) r
    | 'u' :: h1 :: h2 :: h3 :: h4 :: r =>
      match hexVal h1, hexVal h2, hexVal h3, hexVal h4 with
      | some a, some b, some c, some d =>
        parseJsonStringBody (Char.ofNat (((a * 16 + b) * 16 + c) * 16 + d) :: acc) r
      | _, _, _, _ => Except.error "Bad Unicode escape in JSON"
    | _ => Except.error "Bad escaped character in JSON"
  | c :: rest =>
    if c.toNat < 32 then Except.error "Bad control character in JSON"
    else parseJsonStringBody (c :: acc) rest

/-- Number parser: strict JSON grammar, value as a rational. -/
def parseJsonNumber (l : List Char) : Except String (ℚ × List Char) :=
  let (neg, l1) := match l with
    | '-' :: r => (true, r)
    | _ => (false, l)
  let intDigits := l1.takeWhile Char.isDigit
  let l2 := l1.drop intDigits.length
  match intDigits with
  | [] => Except.error "No number after minus sign in JSON"
  | d :: ds =>
    if d = '0' ∧ ds ≠ [] then Except.error "Unexpected number in JSON"
    else
      let intVal : ℚ := ((intDigits.foldl (fun n c => n * 10 + (c.toNat - ('0').toNat)) 0 : Nat) : ℚ)
      let (fracVal, l3) : ℚ × List Char := match l2 with
        | '.' :: r =>
          let fds := r.takeWhile Char.isDigit
          (((fds.foldl (fun n c => n * 10 + (c.toNat - ('0').toNat)) 0 : Nat) : ℚ) / ((10 : ℚ) ^ fds.length),
            r.drop fds.length)
        | _ => (0, l2)
      let fracBad := match l2 with
        | '.' :: r => (r.takeWhile Char.isDigit).isEmpty
        | _ => false
      let (expOk, expMul, l4) : Bool × ℚ × List Char := match l3 with
        | 'e' :: r | 'E' :: r =>
          let (esign, r1) : Int × List Char := match r with
            | '+' :: rr => (1, rr)
            | '-' :: rr => (-1, rr)
            | _ => (1, r)
          let eds := r1.takeWhile Char.isDigit
          if eds.isEmpty then (false, 1, r1)
          else
            let e : Nat := eds.foldl (fun n c => n * 10 + (c.toNat - ('0').toNat)) 0
            (true, (10 : ℚ) ^ (esign * (e : Int)), r1.drop eds.length)
        | _ => (true, 1, l3)
      if fracBad then Except.error "Unterminated fractional number in JSON"
      else if !expOk then Except.error "Exponent part is missing a number in JSON"
      else
        let v := (intVal + fracVal) * expMul
        Except.ok (if neg then -v else v, l4)

/-- Literal keyword parser. -/
def parseJsonLit (lit : List Char) (v : JsonValue) (l : List Char) :
    Except String (JsonValue × List Char) :=
  if lit.isPrefixOf l then Except.ok (v, l.drop lit.length)
  else Except.error "Unexpected token in JSON"

mutual
/-- Value parser of the strict JSON grammar; `fuel` bounds the nesting and
is always called with more fuel than the input length, so it never runs
out on real inputs. -/
def parseJsonValue : Nat → List Char → Except String (JsonValue × List Char)
  | 0, _ => Except.error "Maximum call stack size exceeded"
  | fuel + 1, input =>
    match skipWs input with
    | [] => Except.error "Unexpected end of JSON input"
    | c :: rest =>
      if c = 'n' then parseJsonLit ("null").data JsonValue.null (c :: rest)
      else if c = 't' then parseJsonLit ("true").data (JsonValue.bool true) (c :: rest)
      else if c = 'f' then parseJsonLit ("false").data (JsonValue.bool false) (c :: rest)
      else if c = '"' then
        match parseJsonStringBody [] rest with
        | Except.ok (s, r) => Except.ok (JsonValue.str s, r)
        | Except.error e => Except.error e
      else if c = '[' then
        match skipWs rest with
        | ']' :: r2 => Except.ok (JsonValue.arr [], r2)
        | l2 =>
          match parseJsonValue fuel l2 with
          | Except.ok (v, r2) => parseJsonArrayRest fuel [v] r2
          | Except.error e => Except.error e
      else if c = '{' then
        match skipWs rest with
        | '}' :: r2 => Except.ok (JsonValue.obj [], r2)
        | l2 =>
          match parseJsonMember fuel l2 with
          | Except.ok (kv, r2) => parseJsonObjectRest fuel [kv] r2
          | Except.error e => Except.error e
      else if c = '-' ∨ c.isDigit then
        match parseJsonNumber (c :: rest) with
        | Except.ok (q, r) => Except.ok (JsonValue.num q, r)
        | Except.error e => Except.error e
      else Except.error "Unexpected token in JSON"

/-- After one array element: expect a comma and another element, or the
closing bracket. -/
def parseJsonArrayRest : Nat → List JsonValue → List Char →
    Except String (JsonValue × List Char)
  | 0, _, _ => Except.error "Maximum call stack size exceeded"
  | fuel + 1, acc, input =>
    match skipWs input with
    | ',' :: r =>
      match parseJsonValue fuel r with
      | Except.ok (v, r2) => parseJsonArrayRest fuel (acc ++ [v]) r2
      | Except.error e => Except.error e
    | ']' :: r => Except.ok (JsonValue.arr acc, r)
    | _ :: _ => Except.error "Expected comma or bracket after array element in JSON"
    | [] => Except.error "Unexpected end of JSON input"

/-- One `"key": value` member. -/
def parseJsonMember : Nat → List Char →
    Except String ((String × JsonValue) × List Char)
  | 0, _ => Except.error "Maximum call stack size exceeded"
  | fuel + 1, input =>
    match skipWs input with
    | '"' :: r =>
      match parseJsonStringBody [] r with
      | Except.ok (k, r2) =>
        match skipWs r2 with
        | ':' :: r3 =>
          match parseJsonValue fuel r3 with
          | Except.ok (v, r4) => Except.ok ((k, v), r4)
          | Except.error e => Except.error e
        | _ => Except.error "Expected colon after property name in JSON"
      | Except.error e => Except.error e
    | _ => Except.error "Expected property name in JSON"

/-- After one object member: expect a comma and another member, or the
closing brace. -/
def parseJsonObjectRest : Nat → List (String × JsonValue) → List Char →
    Except String (JsonValue × List Char)
  | 0, _, _ => Except.error "Maximum call stack size exceeded"
  | fuel + 1, acc, input =>
    match skipWs input with
    | ',' :: r =>
      match parseJsonMember fuel r with
      | Except.ok (kv, r2) => parseJsonObjectRest fuel (acc ++ [kv]) r2
      | Except.error e => Except.error e
    | '}' :: r => Except.ok (JsonValue.obj acc, r)
    | _ :: _ => Except.error "Expected comma or brace after object member in JSON"
    | [] => Except.error "Unexpected end of JSON input"
end

/-- Models `JSON.parse`: a single value with only whitespace around it. -/
def jsonParse (s : String) : Except String JsonValue :=
  match parseJsonValue (s.length + 1) s.data with
  | Except.ok (v, rest) =>
    if (skipWs rest).isEmpty then Except.ok v
    else Except.error "Unexpected non-whitespace character after JSON"
  | Except.error e => Except.error e

/-- The message of a parse failure, when the parse fails. -/
def jsonParseErr (s : String) : Option String :=
  match jsonParse s with
  | Except.error m => some m
  | Except.ok _ => none

/-! ### The Zod `BDDCardSchema` (src/types/index.ts lines 100-110)

`z.object` checks the listed fields and strips unknown keys; `parse` of the
array schema throws on the first shape violation, so the model returns
`none` as soon as any card fails.  String length is the code-unit length,
which coincides with the character count on the strings considered. -/

structure BDDCard where
  summary : String
  description : String
  acceptanceCriteria : List String
  labels : Option (List String)
  priority : Option String
  storyPoints : Option ℚ
  component : Option String
  epicLink : Option String
  linkedIssues : Option (List String)
deriving DecidableEq

/-- The priority enum of the schema (line 105). -/
def priorityValues : List String :=
  ["Muito Baixa", "Baixa", "Média", "Alta", "Muito Alta",
   "Lowest", "Low", "Medium", "High", "Highest"]

/-- JS object property access: with duplicate keys from `JSON.parse`, the
last occurrence wins. -/
def objGet (fields : List (String × JsonValue)) (key : String) : Option JsonValue :=
  ((fields.filter fun kv => kv.1 = key).getLast?).map Prod.snd

def asJsonString : JsonValue → Option String
  | JsonValue.str s => some s
  | _ => none

def asJsonStringArray : JsonValue → Option (List String)
  | JsonValue.arr es => es.mapM asJsonString
  | _ => none

def asJsonNumber : JsonValue → Option ℚ
  | JsonValue.num q => some q
  | _ => none

/-- An optional schema field: absent is fine, present must validate. -/
def optField {α : Type} (v : Option JsonValue) (p : JsonValue → Option α) :
    Option (Option α) :=
  match v with
  | none => some none
  | some w => (p w).map some

/-- Validation of one card against `BDDCardSchema`:
`summary` a string of length at most 80, `description` a string,
`acceptanceCriteria` an array of strings (no non-emptiness check in the
schema), and the optional fields. -/
def bddCardParse (v : JsonValue) : Option BDDCard :=
  match v with
  | JsonValue.obj fields => do
    let summary ← (objGet fields ("summary")).bind asJsonString
    if summary.length ≤ 80 then pure () else none
    let description ← (objGet fields ("description")).bind asJsonString
    let acceptanceCriteria ← (objGet fields ("acceptanceCriteria")).bind asJsonStringArray
    let labels ← optField (objGet fields ("labels")) asJsonStringArray
    let priority ← optField (objGet fields ("priority"))
      (fun w => (asJsonString w).bind fun s =>
        if s ∈ priorityValues then some s else none)
    let storyPoints ← optField (objGet fields ("storyPoints")) asJsonNumber
    let component ← optField (objGet fields ("component")) asJsonString
    let epicLink ← optField (objGet fields ("epicLink")) asJsonString
    let linkedIssues ← optField (objGet fields ("linkedIssues")) asJsonStringArray
    some ⟨summary, description, acceptanceCriteria, labels, priority,
      storyPoints, component, epicLink, linkedIssues⟩
  | _ => none

/-- Elementwise validation of an array of cards: all elements must be
valid, any failure fails the whole array. -/
def parseAllCards : List JsonValue → Option (List BDDCard)
  | [] => some []
  | v :: vs =>
    match bddCardParse v, parseAllCards vs with
    | some c, some cs => some (c :: cs)
    | _, _ => none

/-- Validation against `BDDCardsArraySchema = z.array(BDDCardSchema)`
(gepeto.ts line 18): an array whose every element is a valid card. -/
def bddCardsArrayParse (v : JsonValue) : Option (List BDDCard) :=
  match v with
  | JsonValue.arr es => parseAllCards es
  | _ => none

/-! ### `attemptJsonFix` (gepeto.ts lines 190-216)

Each of the global regex replacements of lines 207-213 is modelled by a
left-to-right scanner that, at every position, either rewrites a match and
resumes right after it or emits one character and moves on — the semantics
of a global `replace`.  The scanners take a fuel argument; the wrappers
supply fuel greater than the input length, and every step consumes at least
one input character, so the fuel never runs out on real inputs. -/

def isWordChar (c : Char) : Bool := c.isAlpha || c.isDigit || c = '_'

/-- Replacement of the pattern which is a comma, then optional whitespace,
then a closing brace or bracket, by everything except the comma
(line 208, trailing-comma removal). -/
def fixPass1 : Nat → List Char → List Char
  | 0, l => l
  | _ + 1, [] => []
  | fuel + 1, c :: rest =>
    if c = ',' then
      let ws := rest.takeWhile isWsChar
      match rest.drop ws.length with
      | b :: rest2 =>
        if b = '}' ∨ b = ']' then ws ++ b :: fixPass1 fuel rest2
        else c :: fixPass1 fuel rest
      | [] => c :: fixPass1 fuel rest
    else c :: fixPass1 fuel rest

/-- Replacement quoting unquoted keys: an opening brace or comma, optional
whitespace, a nonempty word, and a colon; the word gets wrapped in quotes
(line 209). -/
def fixPass2 : Nat → List Char → List Char
  | 0, l => l
  | _ + 1, [] => []
  | fuel + 1, c :: rest =>
    if c = '{' ∨ c = ',' then
      let ws := rest.takeWhile isWsChar
      let afterWs := rest.drop ws.length
      let word := afterWs.takeWhile isWordChar
      match word, afterWs.drop word.length with
      | _ :: _, ':' :: rest2 =>
        c :: (ws ++ '"' :: (word ++ '"' :: ':' :: fixPass2 fuel rest2))
      | _, _ => c :: fixPass2 fuel rest
    else c :: fixPass2 fuel rest

/-- Matching the tail group of the value-quoting pattern: optional
whitespace then a comma or closing brace. -/
def pass3TryEnd (r : List Char) : Option (List Char × Char × List Char) :=
  let ws := r.takeWhile isWsChar
  match r.drop ws.length with
  | b :: rest2 => if b = ',' ∨ b = '}' then some (ws, b, rest2) else none
  | [] => none

/-- Lazy scan of the middle of the value-quoting pattern: the shortest run
of characters other than comma, closing brace and closing bracket after
which the tail group matches. -/
def pass3Lazy : Nat → List Char → List Char →
    Option (List Char × List Char × Char × List Char)
  | 0, _, _ => none
  | fuel + 1, midRev, r =>
    match pass3TryEnd r with
    | some (ws, b, rest2) => some (midRev.reverse, ws, b, rest2)
    | none =>
      match r with
      | [] => none
      | c :: rest =>
        if c = ',' ∨ c = '}' ∨ c = ']' then none
        else pass3Lazy fuel (c :: midRev) rest

/-- Replacement quoting unquoted scalar values (line 210): a colon,
optional whitespace, a first character that is none of quote, comma,
opening brace, opening bracket or whitespace, then the shortest run of
characters free of comma, closing brace and closing bracket such that
optional whitespace and a comma or closing brace follow.  The value gets
wrapped in quotes with a single space after the colon. -/
def fixPass3 : Nat → List Char → List Char
  | 0, l => l
  | _ + 1, [] => []
  | fuel + 1, c :: rest =>
    if c = ':' then
      let ws := rest.takeWhile isWsChar
      match rest.drop ws.length with
      | c0 :: rest0 =>
        if c0 = '"' ∨ c0 = ',' ∨ c0 = '{' ∨ c0 = '[' ∨ isWsChar c0 then
          c :: fixPass3 fuel rest
        else
          match pass3Lazy fuel [] rest0 with
          | some (middle, endWs, b, rest2) =>
            ':' :: ' ' :: '"' :: (c0 :: middle ++ '"' :: (endWs ++ b :: fixPass3 fuel rest2))
          | none => c :: fixPass3 fuel rest
      | [] => c :: fixPass3 fuel rest
    else c :: fixPass3 fuel rest

/-- Replacement normalizing spacing around colons between two quotes
(line 211): quote, optional whitespace, colon, optional whitespace, quote
becomes quote, colon, space, quote. -/
def fixPass4 : Nat → List Char → List Char
  | 0, l => l
  | _ + 1, [] => []
  | fuel + 1, c :: rest =>
    if c = '"' then
      let ws1 := rest.takeWhile isWsChar
      match rest.drop ws1.length with
      | ':' :: r2 =>
        let ws2 := r2.takeWhile isWsChar
        match r2.drop ws2.length with
        | '"' :: r3 => '"' :: ':' :: ' ' :: '"' :: fixPass4 fuel r3
        | _ => c :: fixPass4 fuel rest
      | _ => c :: fixPass4 fuel rest
    else c :: fixPass4 fuel rest

/-- Replacement of a comma, optional whitespace and a closing brace by the
closing brace (line 212). -/
def fixPass5 : Nat → List Char → List Char
  | 0, l => l
  | _ + 1, [] => []
  | fuel + 1, c :: rest =>
    if c = ',' then
      let ws := rest.takeWhile isWsChar
      match rest.drop ws.length with
      | '}' :: rest2 => '}' :: fixPass5 fuel rest2
      | _ => c :: fixPass5 fuel rest
    else c :: fixPass5 fuel rest

/-- Replacement of a comma, optional whitespace and a closing bracket by
the closing bracket (line 213). -/
def fixPass6 : Nat → List Char → List Char
  | 0, l => l
  | _ + 1, [] => []
  | fuel + 1, c :: rest =>
    if c = ',' then
      let ws := rest.takeWhile isWsChar
      match rest.drop ws.length with
      | ']' :: rest2 => ']' :: fixPass6 fuel rest2
      | _ => c :: fixPass6 fuel rest
    else c :: fixPass6 fuel rest

/-- The bracket slicing of lines 194-204: drop text before the first
opening bracket when it is not at position 0, and text after the last
closing bracket when that bracket is neither at position 0 nor the final
character. -/
def sliceToArray (l : List Char) : List Char :=
  let l1 := match l.findIdx? (fun c => c = '[') with
    | some i => if 0 < i then l.drop i else l
    | none => l
  match (l1.reverse.findIdx? (fun c => c = ']')).map (fun ri => l1.length - 1 - ri) with
  | some j => if 0 < j ∧ j + 1 < l1.length then l1.take (j + 1) else l1
  | none => l1

/-- Models `attemptJsonFix` (gepeto.ts lines 190-216): trim, bracket
slicing, then the six global replacements in source order. -/
def attemptJsonFix (jsonString : String) : String :=
  let l0 := sliceToArray (trimChars jsonString.data)
  let l1 := fixPass1 (l0.length + 1) l0
  let l2 := fixPass2 (l1.length + 1) l1
  let l3 := fixPass3 (l2.length + 1) l2
  let l4 := fixPass4 (l3.length + 1) l3
  let l5 := fixPass5 (l4.length + 1) l4
  String.mk (fixPass6 (l5.length + 1) l5)

/-! ### The recovery pipeline of `generateBDDCards` (gepeto.ts lines 73-107)

The network call, logging and caching are elided; the model takes the
reply content string and returns either the validated cards or the failure
the outer catch turns into a response with a false success flag.  A Zod
rejection is `schemaFail`; a `JSON.parse` rejection is `parseFail` with
the parser message. -/

inductive GepetoFailure : Type where
  | parseFail (msg : String) : GepetoFailure
  | schemaFail : GepetoFailure
deriving DecidableEq

/-- The catch block of lines 83-88: repair the candidate once, re-parse,
re-validate; any error here reaches the outer catch of lines 100-106. -/
def recoverAfterFailure (jsonString : String) : Except GepetoFailure (List BDDCard) :=
  let fixedJson := attemptJsonFix jsonString
  match jsonParse fixedJson with
  | Except.error msg => Except.error (GepetoFailure.parseFail msg)
  | Except.ok parsed =>
    match bddCardsArrayParse parsed with
    | some cards => Except.ok cards
    | none => Except.error GepetoFailure.schemaFail

/-- Models `generateBDDCards` from the reply content onward (gepeto.ts
lines 76-99 with the catch blocks): extraction, strict parse and schema
validation, and on any failure the single repair-and-retry.  A value
`Except.ok cards` is the response with a true success flag carrying the
cards; `Except.error` is the response with a false success flag. -/
def generateBDDCards (content : String) : Except GepetoFailure (List BDDCard) :=
  let jsonString := extractJsonCandidate content
  match jsonParse jsonString with
  | Except.ok parsed =>
    match bddCardsArrayParse parsed with
    | some cards => Except.ok cards
    | none => recoverAfterFailure jsonString
  | Except.error _ => recoverAfterFailure jsonString

/-! ## Concrete instances used by the theorems below -/

deriving instance DecidableEq for Except

/-- A summary string of exactly 85 characters. -/
def summary85 : String := String.mk (List.replicate 85 'A')

/-- A reply whose candidate is a valid JSON array of three schema-shaped
cards whose first card has an 85-character summary. -/
def threeCardReply : String :=
  "[\x7b\"summary\": \"" ++ summary85 ++
    "\", \"description\": \"d\", \"acceptanceCriteria\": [\"a\"]\x7d, \x7b\"summary\": \"B\", \"description\": \"d\", \"acceptanceCriteria\": [\"a\"]\x7d, \x7b\"summary\": \"C\", \"description\": \"d\", \"acceptanceCriteria\": [\"a\"]\x7d]"

/-- A reply whose candidate is a valid JSON array of two cards whose first
card has an empty acceptanceCriteria array. -/
def emptyCriteriaReply : String :=
  "[\x7b\"summary\": \"A\", \"description\": \"d\", \"acceptanceCriteria\": []\x7d, \x7b\"summary\": \"B\", \"description\": \"d\", \"acceptanceCriteria\": [\"a\"]\x7d]"

/-- The reply of the JSON-repair scenario: prose, then a json-fenced block
holding an array with unquoted keys and a trailing comma. -/
def repairScenarioReply : String :=
  "Here you go:\n```json\n[\x7bsummary: \"Test\", description: \"d\", acceptanceCriteria: [\"a\"],\x7d]\n```"

/-- A directory tree with one markdown file inside the docs subdirectory
and one at the top level. -/
def demoFs : FsEntry :=
  FsEntry.dir [("docs", FsEntry.dir [("file.md", FsEntry.file 5)]),
    ("readme.md", FsEntry.file 3)]

/-! ## Theorems -/

/-- Helper: once the loop has recorded a thrown error, or still has fuel,
the retry loop never throws the `undefined` initial value. -/
theorem retryLoop_fst_ne_error_none {E T : Type} (op : Nat → Except E T)
    (cond : E → Bool) (m : Nat) :
    ∀ (fuel attempt : Nat) (le : Option E), (fuel ≠ 0 ∨ le ≠ none) →
      (RetryManager.retryLoop op cond m fuel attempt le).1 ≠ Except.error none := by
  intro fuel
  induction fuel with
  | zero =>
    intro attempt le h
    have hle : le ≠ none := by
      rcases h with h | h
      · exact absurd rfl h
      · exact h
    simpa [RetryManager.retryLoop] using hle
  | succ n ih =>
    intro attempt le _
    cases hop : op attempt with
    | ok v => simp [RetryManager.retryLoop, hop]
    | error e =>
      by_cases hstop : (decide (attempt = m) || !cond e) = true
      · simp [RetryManager.retryLoop, hop, hstop]
      · simp only [RetryManager.retryLoop, hop, Bool.not_eq_true] at hstop ⊢
        simp only [hstop]
        exact ih (attempt + 1) (some e) (Or.inr (by simp))

/-- **C9**: with `maxAttempts = 0` the loop body never runs — the operation
is never invoked (invocation count 0) and the uninitialized `lastError`,
i.e. `undefined` (modelled `none`), is thrown; with `maxAttempts ≥ 1` the
trailing throw of the uninitialized value is unreachable: the result is
never a thrown `undefined`. -/
theorem C9_zero_attempts_throws_undefined {E T : Type}
    (op : Nat → Except E T) (cond : E → Bool) :
    (RetryManager.execute op cond 0 = (Except.error none, 0)) ∧
    (∀ m : Nat, 1 ≤ m → (RetryManager.execute op cond m).1 ≠ Except.error none) := by
  constructor
  · rfl
  · intro m hm
    exact retryLoop_fst_ne_error_none op cond m m 1 none (Or.inl (by omega))

/-- Witness for C9 at a concrete operation. -/
theorem C9_witness :
    (RetryManager.execute (fun _ => (Except.error 0 : Except Nat Nat))
      (fun _ => true) 0 = (Except.error none, 0)) ∧
    (RetryManager.execute (fun _ => (Except.error 0 : Except Nat Nat))
      (fun _ => true) 1).1 ≠ Except.error none :=
  ⟨(C9_zero_attempts_throws_undefined _ _).1,
   (C9_zero_attempts_throws_undefined _ _).2 1 (by decide)⟩

/-- **C3**: with default options (`maxAttempts = 3`), an operation that
fails on every invocation with errors the predicate accepts is invoked
exactly 3 times and the error of the last (third) invocation is re-raised
as-is; an operation whose first error the predicate rejects is invoked
exactly once and that error is re-raised as-is. -/
theorem C3_exhaustion_reraises_original {E T : Type} (op : Nat → Except E T)
    (cond : E → Bool) :
    (∀ errs : Nat → E, (∀ k, op k = Except.error (errs k)) →
      (∀ k, cond (errs k) = true) →
      RetryManager.execute op cond RetryManager.defaultMaxAttempts
        = (Except.error (some (errs 3)), 3)) ∧
    (∀ e, op 1 = Except.error e → cond e = false →
      RetryManager.execute op cond RetryManager.defaultMaxAttempts
        = (Except.error (some e), 1)) := by
  constructor
  · intro errs hop hcond
    simp [RetryManager.execute, RetryManager.defaultMaxAttempts,
      RetryManager.retryLoop, hop, hcond]
  · intro e hop hcond
    simp [RetryManager.execute, RetryManager.defaultMaxAttempts,
      RetryManager.retryLoop, hop, hcond]

/-- Witness for C3 at concrete operations. -/
theorem C3_witness :
    RetryManager.execute (fun _ => (Except.error 7 : Except Nat Nat))
      (fun _ => true) RetryManager.defaultMaxAttempts
      = (Except.error (some 7), 3) ∧
    RetryManager.execute (fun _ => (Except.error 9 : Except Nat Nat))
      (fun _ => false) RetryManager.defaultMaxAttempts
      = (Except.error (some 9), 1) :=
  ⟨(C3_exhaustion_reraises_original _ _).1 (fun _ => 7) (fun _ => rfl) (fun _ => rfl),
   (C3_exhaustion_reraises_original _ _).2 9 rfl rfl⟩

/-- **C6**: with the default options, for every attempt `k` that follows a
computed delay (so `2 ≤ k ≤ maxAttempts = 3`) and every jitter sample
`r ∈ [0, 1)`, the delay computed before attempt `k` without a Retry-After
header lies in the closed-open interval from `2^(k-2) * 1000` to
`1.1 * min (2^(k-2) * 1000) 10000`; with a Retry-After value of `ra`
seconds it equals the maximum of `ra * 1000` and the jittered delay. -/
theorem C6_backoff_delay_bounds (k : Nat) (r : ℚ) (hk2 : 2 ≤ k)
    (hk3 : k ≤ RetryManager.defaultMaxAttempts) (hr0 : 0 ≤ r) (hr1 : r < 1) :
    ((2 : ℚ) ^ (k - 2) * 1000 ≤ RetryManager.finalDelay 1000 10000 2 (k - 1) r none ∧
      RetryManager.finalDelay 1000 10000 2 (k - 1) r none
        < (11 / 10) * min ((2 : ℚ) ^ (k - 2) * 1000) 10000) ∧
    (∀ ra : Nat, RetryManager.finalDelay 1000 10000 2 (k - 1) r (some ra)
      = max ((ra : ℚ) * 1000) (RetryManager.finalDelay 1000 10000 2 (k - 1) r none)) := by
  have hk : k = 2 ∨ k = 3 := by
    simp [RetryManager.defaultMaxAttempts] at hk3
    omega
  constructor
  · rcases hk with rfl | rfl <;>
      simp only [RetryManager.finalDelay] <;>
      norm_num [min_def] <;>
      constructor <;> nlinarith
  · intro ra
    simp [RetryManager.finalDelay]

/-- Witness for C6 at attempt 2 with jitter one half and Retry-After 7. -/
theorem C6_witness :
    ((2 : ℚ) ^ (2 - 2) * 1000 ≤ RetryManager.finalDelay 1000 10000 2 (2 - 1) (1 / 2) none ∧
      RetryManager.finalDelay 1000 10000 2 (2 - 1) (1 / 2) none
        < (11 / 10) * min ((2 : ℚ) ^ (2 - 2) * 1000) 10000) ∧
    RetryManager.finalDelay 1000 10000 2 (2 - 1) (1 / 2) (some 7)
      = max ((7 : ℚ) * 1000) (RetryManager.finalDelay 1000 10000 2 (2 - 1) (1 / 2) none) :=
  ⟨(C6_backoff_delay_bounds 2 (1 / 2) (by norm_num) (by decide)
      (by norm_num) (by norm_num)).1,
   (C6_backoff_delay_bounds 2 (1 / 2) (by norm_num) (by decide)
      (by norm_num) (by norm_num)).2 7⟩

/-- Helper: the output of the local-fallback normalizer always starts with
the title heading, whichever branch was taken. -/
theorem normalizeMarkdownContent_startsWith (s title : String) :
    ("# " ++ title).data.isPrefixOf (normalizeMarkdownContent s title).data = true := by
  dsimp only [normalizeMarkdownContent]
  by_cases h : ("# " ++ title).data.isPrefixOf (cleanupText s).data = true
  · rw [h]
    simpa using h
  · have hb := Bool.eq_false_iff.mpr h
    rw [hb]
    simp only [Bool.false_eq_true, if_false]
    rw [List.isPrefixOf_iff_prefix]
    have hsplit : "# " ++ title ++ "\n\n" ++ cleanupText s
        = ("# " ++ title) ++ ("\n\n" ++ cleanupText s) := by
      rw [String.append_assoc]
    rw [hsplit, String.data_append]
    exact List.prefix_append _ _

/-- Helper: on an input the cleanup pass leaves unchanged and that already
carries the title heading, the local-fallback normalizer is the
identity. -/
theorem normalizeMarkdownContent_of_clean {title x : String}
    (hclean : cleanupText x = x)
    (hpre : ("# " ++ title).data.isPrefixOf x.data = true) :
    normalizeMarkdownContent x title = x := by
  dsimp only [normalizeMarkdownContent]
  rw [hclean, hpre]
  simp

/-- **C2 counterexample**: the remote-document path `normalizeContent`
prepends the heading unconditionally, so normalizing an already-normalized
string again does not return it unchanged — the claimed conditional
prepend and idempotence fail on that path. -/
theorem C2_counterexample :
    normalizeContent "T" (normalizeContent "T" "x") ≠ normalizeContent "T" "x" := by
  decide

/-- **C2 amended**: the conditional heading injection holds for the
local-fallback path `normalizeMarkdownContent` — the heading is prepended
exactly when the cleaned-up text does not already begin with it — and that
path is idempotent on every input whose first normalization is left fixed
by the cleanup pass; the remote path `normalizeContent` instead prepends
the heading unconditionally. -/
theorem C2_amended_normalizer (title s : String) :
    (("# " ++ title).data.isPrefixOf (cleanupText s).data = false →
      normalizeMarkdownContent s title = "# " ++ title ++ "\n\n" ++ cleanupText s) ∧
    (("# " ++ title).data.isPrefixOf (cleanupText s).data = true →
      normalizeMarkdownContent s title = cleanupText s) ∧
    (cleanupText (normalizeMarkdownContent s title) = normalizeMarkdownContent s title →
      normalizeMarkdownContent (normalizeMarkdownContent s title) title
        = normalizeMarkdownContent s title) ∧
    (normalizeContent title s = "# " ++ title ++ "\n\n" ++ cleanupText s) := by
  refine ⟨?_, ?_, ?_, rfl⟩
  · intro h
    dsimp only [normalizeMarkdownContent]
    rw [h]
    simp
  · intro h
    dsimp only [normalizeMarkdownContent]
    rw [h]
    simp
  · intro hstable
    exact normalizeMarkdownContent_of_clean hstable
      (normalizeMarkdownContent_startsWith s title)

/-- Witness for C2 at a concrete title and text. -/
theorem C2_amended_witness :
    normalizeMarkdownContent "x" "T" = "# " ++ "T" ++ "\n\n" ++ cleanupText "x" ∧
    normalizeMarkdownContent (normalizeMarkdownContent "x" "T") "T"
      = normalizeMarkdownContent "x" "T" :=
  ⟨(C2_amended_normalizer "T" "x").1 (by decide),
   (C2_amended_normalizer "T" "x").2.2.1 (by decide)⟩

/-- Helper: the early-return chain of `isPermissionError` computes exactly
the disjunctive permission-class predicate of the spec. -/
theorem isPermissionError_iff_spec (e : FetchError) :
    isPermissionError e = true ↔ PermissionClassSpec e := by
  obtain ⟨rs, cd, msg⟩ := e
  cases msg with
  | none =>
    simp only [isPermissionError, PermissionClassSpec]
    split_ifs <;> simp_all
  | some m =>
    simp only [isPermissionError, PermissionClassSpec]
    split_ifs <;> simp_all

/-- **C7**: the catch branch of `readDocument` diverts to the local
markdown fallback exactly when the error is permission-class in the sense
of the spec (status 403, code 403, or a message containing one of the four
phrases case-insensitively); every other fetch error is returned as a
failure carrying the error message, without invoking the fallback. -/
theorem C7_fallback_iff_permission_error (e : FetchError) :
    (readDocumentCatch e = ReadDocCatchOutcome.fallback ↔ PermissionClassSpec e) ∧
    (¬ PermissionClassSpec e →
      readDocumentCatch e
        = ReadDocCatchOutcome.failure (e.message.getD ("Unknown error"))) := by
  have h := isPermissionError_iff_spec e
  constructor
  · unfold readDocumentCatch
    by_cases hb : isPermissionError e = true
    · simp [hb, h.mp hb]
    · have hb2 := Bool.eq_false_iff.mpr hb
      simp [hb2]
      exact fun hs => hb (h.mpr hs)
  · intro hnot
    unfold readDocumentCatch
    have hb : isPermissionError e = false := by
      cases hh : isPermissionError e
      · rfl
      · exact absurd (h.mp hh) hnot
    simp [hb]

/-- Witness for C7: a 403-status error falls back; a plain network error is
returned as a failure. -/
theorem C7_witness :
    (readDocumentCatch ⟨some 403, none, none⟩ = ReadDocCatchOutcome.fallback ↔
      PermissionClassSpec ⟨some 403, none, none⟩) ∧
    readDocumentCatch ⟨none, none, some "socket hang up"⟩
      = ReadDocCatchOutcome.failure
          ((⟨none, none, some "socket hang up"⟩ : FetchError).message.getD ("Unknown error")) :=
  ⟨(C7_fallback_iff_permission_error _).1,
   (C7_fallback_iff_permission_error _).2 (by
      simp [PermissionClassSpec]
      decide)⟩

/-- **C8**: a table element with two rows of two cells each, whose cells
flatten (trimmed) to `cellA` and `cellB`, is emitted by the tree walker as
two lines, each the two cells joined with the separator and wrapped in the
leading and trailing pipes, followed by exactly one blank line. -/
theorem C8_table_flattening (cA1 cB1 cA2 cB2 : List GElement) (cellA cellB : String)
    (h1 : jsTrim (processElements cA1) = cellA)
    (h2 : jsTrim (processElements cB1) = cellB)
    (h3 : jsTrim (processElements cA2) = cellA)
    (h4 : jsTrim (processElements cB2) = cellB) :
    processElement (GElement.mk none none (some (GTable.mk (some
        [GRow.mk (some [GCell.mk (some cA1), GCell.mk (some cB1)]),
         GRow.mk (some [GCell.mk (some cA2), GCell.mk (some cB2)])]))) none none)
      = "| " ++ cellA ++ " | " ++ cellB ++ " |\n"
          ++ ("| " ++ cellA ++ " | " ++ cellB ++ " |\n") ++ "\n" := by
  simp only [processElement, processTable, processRows, processRow, joinCells,
    processCell, h1, h2, h3, h4]
  apply String.ext
  simp [String.data_append]

/-- Witness for C8 at concrete single-text-run cells. -/
theorem C8_witness :
    processElement (GElement.mk none none (some (GTable.mk (some
        [GRow.mk (some [GCell.mk (some [GElement.mk (some (some "a")) none none none none]),
                        GCell.mk (some [GElement.mk (some (some "b")) none none none none])]),
         GRow.mk (some [GCell.mk (some [GElement.mk (some (some "a")) none none none none]),
                        GCell.mk (some [GElement.mk (some (some "b")) none none none none])])]))) none none)
      = "| " ++ "a" ++ " | " ++ "b" ++ " |\n"
          ++ ("| " ++ "a" ++ " | " ++ "b" ++ " |\n") ++ "\n" :=
  C8_table_flattening _ _ _ _ "a" "b"
    (by simp [processElements, processElement, jsTrim, trimChars, isJsWs])
    (by simp [processElements, processElement, jsTrim, trimChars, isJsWs])
    (by simp [processElements, processElement, jsTrim, trimChars, isJsWs])
    (by simp [processElements, processElement, jsTrim, trimChars, isJsWs])

/-- **C10**: the current directory is scanned recursively (subdirectories
such as docs included, only hidden directories and node_modules skipped)
while the docs directory is also scanned as its own search root, so the
collected list is not duplicate-free: with a markdown file inside docs,
`findMarkdownFiles` returns the same path twice. -/
theorem C10_duplicate_candidates :
    findMarkdownFiles 16 demoFs fallbackSearchPaths
      = ["docs/file.md", "docs/file.md", "readme.md"] ∧
    2 ≤ (findMarkdownFiles 16 demoFs fallbackSearchPaths).count "docs/file.md" := by
  decide

/-- Helper: Zod array validation is all-or-nothing — if any element of the
array fails the card schema, validation of the whole array fails. -/
theorem parseAllCards_eq_none_of_mem :
    ∀ (l : List JsonValue) (x : JsonValue), x ∈ l → bddCardParse x = none →
      parseAllCards l = none := by
  intro l
  induction l with
  | nil =>
    intro x hx
    cases hx
  | cons a as ih =>
    intro x hx hfx
    rcases List.mem_cons.mp hx with rfl | hmem
    · simp [parseAllCards, hfx]
    · cases hfa : bddCardParse a with
      | none => simp [parseAllCards, hfa]
      | some b => simp [parseAllCards, hfa, ih x hmem hfx]

set_option maxRecDepth 10000 in
/-- **C1 counterexample**: on the 3-card batch whose first card has an
85-character summary, `generateBDDCards` does not return the two remaining
cards — the schema rejection aborts the whole call with a failure
response. -/
theorem C1_counterexample :
    summary85.length = 85 ∧
    generateBDDCards threeCardReply = Except.error GepetoFailure.schemaFail := by
  decide

set_option maxRecDepth 10000 in
/-- **C1 amended**: per-card validation is all-or-nothing — an element
failing the card schema fails the whole array, and on the 3-card batch
with an 85-character summary `generateBDDCards` returns a failure with no
cards at all; moreover the schema has no non-emptiness check on
acceptanceCriteria, so a card with an empty criteria list is not flagged
invalid but returned as valid. -/
theorem C1_batch_validation_all_or_nothing :
    (∀ (vs : List JsonValue) (v : JsonValue), v ∈ vs → bddCardParse v = none →
      bddCardsArrayParse (JsonValue.arr vs) = none) ∧
    generateBDDCards threeCardReply = Except.error GepetoFailure.schemaFail ∧
    generateBDDCards emptyCriteriaReply
      = Except.ok [⟨"A", "d", [], none, none, none, none, none, none⟩,
                   ⟨"B", "d", ["a"], none, none, none, none, none, none⟩] := by
  refine ⟨?_, by decide, by decide⟩
  intro vs v hmem hnone
  simpa [bddCardsArrayParse] using parseAllCards_eq_none_of_mem vs v hmem hnone

/-- Witness for C1 at a concrete invalid element. -/
theorem C1_witness :
    bddCardsArrayParse (JsonValue.arr [JsonValue.null]) = none :=
  (C1_batch_validation_all_or_nothing).1 [JsonValue.null] JsonValue.null
    (List.mem_cons_self _ _) (by rfl)

/-- **C4 counterexample**: two replies with different candidate texts whose
repaired forms coincide produce the same failure value, so the surfaced
failure carries neither the original candidate nor any data beyond the
message of the parse error on the repaired text. -/
theorem C4_counterexample :
    extractJsonCandidate "foo [\x7d]" ≠ extractJsonCandidate "bar [\x7d]" ∧
    generateBDDCards "foo [\x7d]" = generateBDDCards "bar [\x7d]" ∧
    generateBDDCards "foo [\x7d]"
      = Except.error (GepetoFailure.parseFail "Unexpected token in JSON") := by
  decide

/-- **C4 amended**: when the candidate still fails to parse after the
repair pass, `generateBDDCards` returns a failure response (the process is
not crashed) whose only payload is the message of the parse error on the
repaired text; the original and repaired texts themselves are not
attached. -/
theorem C4_repair_failure_surfaces_message_only (content m1 m2 : String)
    (h1 : jsonParseErr (extractJsonCandidate content) = some m1)
    (h2 : jsonParseErr (attemptJsonFix (extractJsonCandidate content)) = some m2) :
    generateBDDCards content = Except.error (GepetoFailure.parseFail m2) := by
  simp only [jsonParseErr] at h1 h2
  rcases hp1 : jsonParse (extractJsonCandidate content) with e1 | v1 <;> rw [hp1] at h1 <;>
    simp at h1
  rcases hp2 : jsonParse (attemptJsonFix (extractJsonCandidate content)) with e2 | v2 <;>
    rw [hp2] at h2 <;> simp at h2
  subst h1 h2
  simp [generateBDDCards, recoverAfterFailure, hp1, hp2]

/-- Witness for C4 at a concrete unrepairable reply. -/
theorem C4_witness :
    generateBDDCards "foo [\x7d]"
      = Except.error (GepetoFailure.parseFail "Unexpected token in JSON") :=
  C4_repair_failure_surfaces_message_only "foo [\x7d]"
    "Unexpected token in JSON" "Unexpected token in JSON" (by decide) (by decide)

/-- **C5**: the JSON-repair scenario — prose followed by a json-fenced
array with unquoted keys and a trailing comma — recovers through
extraction, failed strict parse, repair and re-parse into exactly one
valid card whose summary is the string Test. -/
theorem C5_repair_scenario_recovers_one_card :
    generateBDDCards repairScenarioReply
      = Except.ok [⟨"Test", "d", ["a"], none, none, none, none, none, none⟩] ∧
    jsonParseErr (extractJsonCandidate repairScenarioReply)
      = some "Expected property name in JSON" := by
  decide
